import Mathlib

/-!
Shallow embedding of `src/finance_tracker.py` (class `FinanceTracker` and the
transaction listing in `main`).  Amounts are modelled as rationals (the Python
code uses floats; every claim here is about which values are summed, not about
rounding).  Input amounts and dates arrive as strings, exactly as the Python
functions receive arbitrary values and convert them with `float(...)` and
`pd.to_datetime(...)`.
-/

namespace FT

/-- Numeric value of a list of decimal digit characters, most significant first. -/
def digitsVal (cs : List Char) : Nat :=
  cs.foldl (fun n c => 10 * n + (c.toNat - 48)) 0

/-- Model of Python `float(...)` on an unsigned decimal literal:
digits, optionally followed by a point and more digits, with at least one
digit present.  Anything else raises `ValueError`, i.e. returns `none`. -/
def parseUnsigned (cs : List Char) : Option ℚ :=
  let ip := cs.takeWhile Char.isDigit
  let rest := cs.dropWhile Char.isDigit
  match rest with
  | [] => if ip.isEmpty then none else some (digitsVal ip)
  | '.' :: fp =>
      if fp.all Char.isDigit && !(ip.isEmpty && fp.isEmpty) then
        some ((digitsVal ip : ℚ) + (digitsVal fp : ℚ) / (10 : ℚ) ^ fp.length)
      else none
  | _ => none

/-- Model of Python `float(s)` (`finance_tracker.py` lines 27 and 40): an
optional sign followed by a decimal literal; `none` models the raised
`ValueError`.  Note that a leading `-` is accepted, so negative amounts parse. -/
def pyFloat (s : String) : Option ℚ :=
  match s.data with
  | '-' :: cs => (parseUnsigned cs).map (fun q => -q)
  | '+' :: cs => parseUnsigned cs
  | cs => parseUnsigned cs

/-- Split a character list on a separator character. -/
def splitOnChar (sep : Char) : List Char → List (List Char)
  | [] => [[]]
  | c :: cs =>
      let r := splitOnChar sep cs
      if c = sep then [] :: r
      else
        match r with
        | [] => [[c]]
        | g :: gs => (c :: g) :: gs

/-- A parsed calendar date. -/
structure Date where
  year : Nat
  month : Nat
  day : Nat
deriving DecidableEq, Repr

/-- Gregorian leap-year rule. -/
def isLeap (y : Nat) : Bool :=
  (y % 4 == 0 && y % 100 != 0) || y % 400 == 0

/-- Number of days in month `m` of year `y`. -/
def daysInMonth (y m : Nat) : Nat :=
  if m = 2 then (if isLeap y then 29 else 28)
  else if m = 4 ∨ m = 6 ∨ m = 9 ∨ m = 11 then 30
  else 31

/-- All-digit, non-empty character list to a number. -/
def parseNatChars (cs : List Char) : Option Nat :=
  if !cs.isEmpty && cs.all Char.isDigit then some (digitsVal cs) else none

/-- Model of `pd.to_datetime` (`finance_tracker.py` line 52) on the ISO
`YYYY-MM-DD` strings used by the app: three dash-separated numeric fields
forming a valid calendar date; `none` models the raised parse error. -/
def parseDate (s : String) : Option Date :=
  match (splitOnChar '-' s.data).map parseNatChars with
  | [some y, some m, some d] =>
      if 1 ≤ m ∧ m ≤ 12 ∧ 1 ≤ d ∧ d ≤ daysInMonth y m then some ⟨y, m, d⟩ else none
  | _ => none

/-- A stored transaction: the date is kept exactly as supplied (the Python dict
stores `date` unconverted, line 26). -/
structure Transaction where
  date : String
  amount : ℚ
  category : String
  description : String
deriving DecidableEq, Repr

/-- The session state: the transaction list and the budgets dict
(`st.session_state.transactions` / `st.session_state.budgets`). -/
structure State where
  transactions : List Transaction
  budgets : List (String × ℚ)
deriving DecidableEq, Repr

/-- The fixed category list (`self.categories`, lines 10-13). -/
def categories : List String :=
  ["Housing", "Transportation", "Food", "Utilities",
   "Healthcare", "Entertainment", "Shopping", "Other"]

/-- Initial session state (lines 16-20): no transactions, every category's
budget set to 0.0. -/
def initState : State :=
  { transactions := [], budgets := categories.map (fun c => (c, 0)) }

/-- `FinanceTracker.add_transaction` (lines 22-35): converts the amount with
`float`; on success appends the new transaction and returns `True`, on
`ValueError` leaves the state alone and returns `False`. -/
def add_transaction (st : State) (date amount category description : String) :
    State × Bool :=
  match pyFloat amount with
  | some q =>
      ({ st with transactions := st.transactions ++ [⟨date, q, category, description⟩] }, true)
  | none => (st, false)

/-- Python dict assignment `m[k] = v`: overwrite the entry in place if the key
is present, otherwise append it. -/
def dictSet (m : List (String × ℚ)) (k : String) (v : ℚ) : List (String × ℚ) :=
  if m.any (fun p => p.1 == k) then m.map (fun p => if p.1 = k then (k, v) else p)
  else m ++ [(k, v)]

/-- `FinanceTracker.update_budget` (lines 37-44): converts the amount with
`float`; on success overwrites `budgets[category]` and returns `True`, on
`ValueError` leaves the state alone and returns `False`. -/
def update_budget (st : State) (category amount : String) : State × Bool :=
  match pyFloat amount with
  | some q => ({ st with budgets := dictSet st.budgets category q }, true)
  | none => (st, false)

/-- A transaction whose date has been parsed (a row of the DataFrame after
`df['date'] = pd.to_datetime(df['date'])`, line 52). -/
structure PTransaction where
  date : Date
  amount : ℚ
  category : String
  description : String
deriving DecidableEq, Repr

/-- Parse one stored transaction's date. -/
def parseTransaction (t : Transaction) : Option PTransaction :=
  (parseDate t.date).map (fun d => ⟨d, t.amount, t.category, t.description⟩)

/-- Parse every stored date (line 52); `none` models the exception raised by
`pd.to_datetime` when any stored date fails to parse. -/
def parseLedger : List Transaction → Option (List PTransaction)
  | [] => some []
  | t :: ts =>
      match parseTransaction t, parseLedger ts with
      | some p, some ps => some (p :: ps)
      | _, _ => none

/-- The month mask `(df['date'].dt.year == year) & (df['date'].dt.month == month)`
(line 53). -/
def inMonth (y m : Nat) (d : Date) : Bool :=
  d.year == y && d.month == m

/-- `df[monthly_mask]` (line 54): the transactions of the requested month. -/
def monthlyFiltered (ts : List PTransaction) (y m : Nat) : List PTransaction :=
  ts.filter (fun t => inMonth y m t.date)

/-- The distinct category values appearing in a row list (the keys produced by
`groupby('category')`). -/
def groupKeys (ts : List PTransaction) : List String :=
  (ts.map (fun t => t.category)).dedup

/-- Sum of the `amount` column. -/
def sumAmounts (ts : List PTransaction) : ℚ :=
  (ts.map (fun t => t.amount)).sum

/-- `groupby('category')['amount'].sum()` (line 54): one row per category value
present, holding the summed amount. -/
def groupByCategorySum (ts : List PTransaction) : List (String × ℚ) :=
  (groupKeys ts).map (fun c => (c, sumAmounts (ts.filter (fun t => t.category == c))))

/-- `FinanceTracker.get_monthly_spending` (lines 46-55): empty DataFrame for an
empty ledger, otherwise parse all dates, filter to the month and group. -/
def get_monthly_spending (st : State) (y m : Nat) : Option (List (String × ℚ)) :=
  if st.transactions.isEmpty then some []
  else (parseLedger st.transactions).map (fun ts => groupByCategorySum (monthlyFiltered ts y m))

/-- `monthly_spending[monthly_spending['category'] == category]['amount'].sum()`
(lines 69-71); the sum of an empty selection is 0.0, which also covers the
`if not monthly_spending.empty else 0.0` branch. -/
def catSpending (ms : List (String × ℚ)) (c : String) : ℚ :=
  ((ms.filter (fun p => p.1 == c)).map (fun p => p.2)).sum

/-- `st.session_state.budgets.get(category, 0.0)` (line 75). -/
def budgetGet (st : State) (c : String) : ℚ :=
  (st.budgets.lookup c).getD 0

/-- The data series built by `FinanceTracker.plot_monthly_comparison`
(lines 57-81): for each category of `self.categories`, in order, the pair of
monthly spending and budget.  This is the reconcile operation of the spec; the
chart object itself is presentation and out of scope. -/
def plot_monthly_comparison (st : State) (y m : Nat) :
    Option (List (String × ℚ × ℚ)) :=
  (get_monthly_spending st y m).map (fun ms =>
    categories.map (fun c => (c, catSpending ms c, budgetGet st c)))

/-- Insert a transaction into a list already sorted by date descending. -/
def insertDesc (t : Transaction) : List Transaction → List Transaction
  | [] => [t]
  | u :: us => if u.date ≤ t.date then t :: u :: us else u :: insertDesc t us

/-- Sort transactions by date, most recent first.  Models
`df.sort_values('date', ascending=False)` (line 139) up to the order of
equal-date rows: pandas' default sort kind is unstable, so only
permutation-invariant facts are proved about this function. -/
def sortByDateDesc : List Transaction → List Transaction
  | [] => []
  | t :: ts => insertDesc t (sortByDateDesc ts)

/-- The recent-transactions listing of `main` (lines 137-140). -/
def listTransactions (st : State) : List Transaction :=
  sortByDateDesc st.transactions

/-- Spec-side predicate for claims C1 and C7: the amount string parses as a
non-negative decimal number. -/
def parsesAsNonneg (s : String) : Bool :=
  match pyFloat s with
  | some q => decide (0 ≤ q)
  | none => false

/-! ### Helper lemmas about the budgets dict -/

theorem lookup_setAll_self (m : List (String × ℚ)) (k : String) (v : ℚ)
    (h : m.any (fun p => p.1 == k) = true) :
    (m.map (fun p => if p.1 = k then (k, v) else p)).lookup k = some v := by
  induction m with
  | nil => simp at h
  | cons p m ih =>
      obtain ⟨pk, pv⟩ := p
      by_cases hp : pk = k
      · subst hp
        simp [List.lookup_cons]
      · have hm : m.any (fun p => p.1 == k) = true := by simpa [hp] using h
        have hbf : (k == pk) = false := beq_eq_false_iff_ne.mpr (Ne.symm hp)
        simpa [List.lookup_cons, hp, hbf] using ih hm

theorem lookup_append_self (m : List (String × ℚ)) (k : String) (v : ℚ)
    (h : m.any (fun p => p.1 == k) = false) :
    (m ++ [(k, v)]).lookup k = some v := by
  induction m with
  | nil => simp [List.lookup_cons]
  | cons p m ih =>
      obtain ⟨pk, pv⟩ := p
      simp only [List.any_cons, Bool.or_eq_false_iff] at h
      obtain ⟨h1, h2⟩ := h
      have h1' : pk ≠ k := by simpa [beq_eq_false_iff_ne] using h1
      have hbf : (k == pk) = false := beq_eq_false_iff_ne.mpr (Ne.symm h1')
      simpa [List.cons_append, List.lookup_cons, hbf] using ih h2

theorem lookup_setAll_ne (m : List (String × ℚ)) (k k' : String) (v : ℚ)
    (h : k' ≠ k) :
    (m.map (fun p => if p.1 = k then (k, v) else p)).lookup k' = m.lookup k' := by
  induction m with
  | nil => rfl
  | cons p m ih =>
      obtain ⟨pk, pv⟩ := p
      by_cases hp : pk = k
      · subst hp
        have hbf : (k' == pk) = false := beq_eq_false_iff_ne.mpr h
        simp [List.lookup_cons, hbf, ih]
      · by_cases hk : k' = pk
        · subst hk
          simp [List.lookup_cons, hp]
        · have hbf : (k' == pk) = false := beq_eq_false_iff_ne.mpr hk
          simp [List.lookup_cons, hp, hbf, ih]

theorem lookup_append_ne (m : List (String × ℚ)) (k k' : String) (v : ℚ)
    (h : k' ≠ k) :
    (m ++ [(k, v)]).lookup k' = m.lookup k' := by
  have hbf : (k' == k) = false := beq_eq_false_iff_ne.mpr h
  induction m with
  | nil => simp [List.lookup_cons, hbf]
  | cons p m ih =>
      obtain ⟨pk, pv⟩ := p
      by_cases hk : k' = pk
      · subst hk
        simp [List.lookup_cons]
      · have hbf2 : (k' == pk) = false := beq_eq_false_iff_ne.mpr hk
        simp [List.lookup_cons, hbf2, ih]

theorem lookup_dictSet_self (m : List (String × ℚ)) (k : String) (v : ℚ) :
    (dictSet m k v).lookup k = some v := by
  unfold dictSet
  cases h : m.any (fun p => p.1 == k) with
  | true => simpa using lookup_setAll_self m k v h
  | false => simpa using lookup_append_self m k v h

theorem lookup_dictSet_ne (m : List (String × ℚ)) (k k' : String) (v : ℚ)
    (h : k' ≠ k) :
    (dictSet m k v).lookup k' = m.lookup k' := by
  unfold dictSet
  cases hm : m.any (fun p => p.1 == k) with
  | true => simpa using lookup_setAll_ne m k k' v h
  | false => simpa using lookup_append_ne m k k' v h

/-! ### Claim C1 -/

/-- Claim C1, counterexample: the string "-5" cannot be parsed as a
non-negative decimal number, yet `add_transaction` succeeds on it and appends
a (negative-amount) transaction, so the "fails iff not a non-negative
decimal" reading is false: `float(amount)` accepts negative literals. -/
theorem add_transaction_negative_accepted :
    parsesAsNonneg "-5" = false ∧
    (add_transaction initState "2024-01-05" "-5" "Food" "x").2 = true ∧
    (add_transaction initState "2024-01-05" "-5" "Food" "x").1.transactions.length = 1 := by
  decide

/-- Claim C1 (amended): `add_transaction` fails exactly when the amount cannot
be parsed as a decimal number (the sign is unrestricted); on success it
appends exactly the one new transaction, so the ledger grows by one. -/
theorem add_transaction_spec (st : State) (d a c ds : String) :
    ((add_transaction st d a c ds).2 = false ↔ pyFloat a = none) ∧
    (∀ q, pyFloat a = some q →
      (add_transaction st d a c ds).1.transactions =
        st.transactions ++ [⟨d, q, c, ds⟩] ∧
      (add_transaction st d a c ds).1.transactions.length =
        st.transactions.length + 1) := by
  unfold add_transaction
  cases h : pyFloat a <;> simp [h]

/-- Witness for `add_transaction_spec` at concrete inputs. -/
theorem add_transaction_spec_witness :
    (add_transaction initState "2024-01-05" "abc" "Food" "x").2 = false ∧
    (add_transaction initState "2024-01-05" "7" "Food" "x").1.transactions.length =
      initState.transactions.length + 1 := by
  refine ⟨?_, ?_⟩
  · exact (add_transaction_spec initState "2024-01-05" "abc" "Food" "x").1.mpr (by decide)
  · exact ((add_transaction_spec initState "2024-01-05" "7" "Food" "x").2 7 (by decide)).2

/-! ### Claim C4 -/

/-- Claim C4: when the amount fails to parse, both `add_transaction` and
`update_budget` return failure and leave the whole state (ledger and budgets)
unchanged. -/
theorem invalid_amount_no_mutation (st : State) (d a c ds : String)
    (h : pyFloat a = none) :
    (add_transaction st d a c ds).1 = st ∧ (add_transaction st d a c ds).2 = false ∧
    (update_budget st c a).1 = st ∧ (update_budget st c a).2 = false := by
  unfold add_transaction update_budget
  simp [h]

/-- Witness for `invalid_amount_no_mutation` at the spec's scenario input "abc". -/
theorem invalid_amount_no_mutation_witness :
    (add_transaction initState "2024-01-05" "abc" "Food" "x").1 = initState ∧
    (add_transaction initState "2024-01-05" "abc" "Food" "x").2 = false ∧
    (update_budget initState "Food" "abc").1 = initState ∧
    (update_budget initState "Food" "abc").2 = false :=
  invalid_amount_no_mutation initState "2024-01-05" "abc" "Food" "x" (by decide)

/-! ### Claim C7 -/

/-- Claim C7, counterexample: "-5" is not a non-negative decimal number, yet
`update_budget` accepts it and stores a negative budget, so the
"fails iff not a non-negative decimal" characterisation is false. -/
theorem update_budget_negative_accepted :
    parsesAsNonneg "-5" = false ∧
    (update_budget initState "Food" "-5").2 = true ∧
    budgetGet (update_budget initState "Food" "-5").1 "Food" = -5 := by
  decide

/-- Claim C7 (amended): `update_budget` fails exactly under the same condition
as `add_transaction` — the amount does not parse as a decimal number — and on
success it overwrites the category's budget with the parsed value, replacing
(not accumulating onto) whatever was stored before. -/
theorem update_budget_spec (st st2 : State) (c a d c2 ds : String) :
    ((update_budget st c a).2 = (add_transaction st2 d a c2 ds).2) ∧
    ((update_budget st c a).2 = false ↔ pyFloat a = none) ∧
    (∀ q, pyFloat a = some q →
      (update_budget st c a).2 = true ∧
      budgetGet (update_budget st c a).1 c = q) := by
  unfold update_budget add_transaction
  cases h : pyFloat a with
  | none => simp
  | some q =>
      refine ⟨rfl, by simp, ?_⟩
      intro q' hq'
      injection hq' with e
      subst e
      exact ⟨rfl, by simp [budgetGet, lookup_dictSet_self]⟩

/-- Witness for `update_budget_spec` at concrete inputs. -/
theorem update_budget_spec_witness :
    ((update_budget initState "Food" "200").2 =
      (add_transaction initState "2024-01-05" "200" "Food" "x").2) ∧
    budgetGet (update_budget initState "Food" "200").1 "Food" = 200 := by
  refine ⟨(update_budget_spec initState initState "Food" "200" "2024-01-05" "Food" "x").1, ?_⟩
  exact ((update_budget_spec initState initState "Food" "200" "2024-01-05" "Food" "x").2.2
    200 (by decide)).2

/-! ### Helper lemmas about the reconciliation pipeline -/

theorem get_monthly_spending_eq (st : State) (y m : Nat) :
    get_monthly_spending st y m =
      (parseLedger st.transactions).map
        (fun ts => groupByCategorySum (monthlyFiltered ts y m)) := by
  unfold get_monthly_spending
  cases h : st.transactions with
  | nil => rfl
  | cons t ts => rfl

theorem catSpending_cons (p : String × ℚ) (l : List (String × ℚ)) (c : String) :
    catSpending (p :: l) c =
      if p.1 = c then p.2 + catSpending l c else catSpending l c := by
  by_cases hp : p.1 = c
  · have hb : (p.1 == c) = true := by simpa using hp
    simp [catSpending, List.filter_cons, hb, hp]
  · have hb : (p.1 == c) = false := beq_eq_false_iff_ne.mpr hp
    simp [catSpending, List.filter_cons, hb, hp]

theorem catSpending_mapKeys (ks : List String) (f : String → ℚ) (c : String)
    (h : ks.Nodup) :
    catSpending (ks.map (fun k => (k, f k))) c = if c ∈ ks then f c else 0 := by
  induction ks with
  | nil => simp [catSpending]
  | cons k ks ih =>
      obtain ⟨hk, hks⟩ := List.nodup_cons.mp h
      rw [List.map_cons, catSpending_cons, ih hks]
      by_cases hkc : k = c
      · subst hkc
        simp [hk]
      · simp [hkc, Ne.symm hkc]

theorem catSpending_groupByCategorySum (l : List PTransaction) (c : String) :
    catSpending (groupByCategorySum l) c =
      sumAmounts (l.filter (fun t => t.category == c)) := by
  have key : catSpending (groupByCategorySum l) c =
      if c ∈ groupKeys l then sumAmounts (l.filter (fun t => t.category == c)) else 0 :=
    catSpending_mapKeys (groupKeys l)
      (fun k => sumAmounts (l.filter (fun t => t.category == k))) c (List.nodup_dedup _)
  rw [key]
  by_cases hc : c ∈ groupKeys l
  · rw [if_pos hc]
  · rw [if_neg hc]
    have hnil : l.filter (fun t => t.category == c) = [] := by
      rw [List.filter_eq_nil_iff]
      intro t ht hcat
      exact hc (List.mem_dedup.mpr (List.mem_map.mpr ⟨t, ht, by simpa using hcat⟩))
    rw [hnil]
    rfl

theorem parseLedger_cons (t : Transaction) (ts : List Transaction) :
    parseLedger (t :: ts) =
      match parseTransaction t, parseLedger ts with
      | some p, some ps => some (p :: ps)
      | _, _ => none := rfl

theorem parseTransaction_fields (t : Transaction) (p : PTransaction)
    (h : parseTransaction t = some p) :
    p.category = t.category ∧ p.amount = t.amount := by
  unfold parseTransaction at h
  cases hd : parseDate t.date with
  | none => rw [hd] at h; exact absurd h (by simp)
  | some d =>
      rw [hd] at h
      simp only [Option.map_some'] at h
      injection h with e
      subst e
      exact ⟨rfl, rfl⟩

theorem parseLedger_mem_category (l : List Transaction) (ps : List PTransaction)
    (h : parseLedger l = some ps) :
    ∀ p ∈ ps, ∃ t ∈ l, t.category = p.category := by
  induction l generalizing ps with
  | nil =>
      injection h with e
      subst e
      intro p hp
      simp at hp
  | cons t ts ih =>
      rw [parseLedger_cons] at h
      cases hpt : parseTransaction t with
      | none => rw [hpt] at h; exact absurd h (by simp)
      | some p0 =>
          cases hps : parseLedger ts with
          | none => rw [hpt, hps] at h; exact absurd h (by simp)
          | some ps0 =>
              rw [hpt, hps] at h
              injection h with e
              subst e
              intro p hp
              rcases List.mem_cons.mp hp with rfl | hmem
              · exact ⟨t, List.mem_cons_self t ts,
                  ((parseTransaction_fields t p hpt).1).symm⟩
              · obtain ⟨u, hu, hcat⟩ := ih ps0 hps p hmem
                exact ⟨u, List.mem_cons_of_mem t hu, hcat⟩

theorem parseLedger_isSome_of (l : List Transaction)
    (h : ∀ t ∈ l, (parseDate t.date).isSome = true) :
    (parseLedger l).isSome = true := by
  induction l with
  | nil => rfl
  | cons t ts ih =>
      have ht : (parseDate t.date).isSome = true := h t (List.mem_cons_self t ts)
      have hts : (parseLedger ts).isSome = true :=
        ih (fun u hu => h u (List.mem_cons_of_mem t hu))
      obtain ⟨d, hd⟩ := Option.isSome_iff_exists.mp ht
      obtain ⟨ps, hps⟩ := Option.isSome_iff_exists.mp hts
      rw [parseLedger_cons]
      unfold parseTransaction
      rw [hd, hps]
      rfl

theorem sum_map_ite_split (cs : List String) (x : String) (a : ℚ) (f : String → ℚ)
    (h : cs.Nodup) :
    (cs.map (fun c => if x = c then a + f c else f c)).sum =
      (if x ∈ cs then a else 0) + (cs.map f).sum := by
  induction cs with
  | nil => simp
  | cons c cs ih =>
      obtain ⟨hc, hcs⟩ := List.nodup_cons.mp h
      rw [List.map_cons, List.sum_cons, ih hcs, List.map_cons, List.sum_cons]
      by_cases hx : x = c
      · subst hx
        rw [if_pos rfl, if_neg hc, if_pos (List.mem_cons_self x cs)]
        ring
      · have hxc : x ∈ c :: cs ↔ x ∈ cs := by simp [List.mem_cons, hx]
        rw [if_neg hx]
        by_cases hm : x ∈ cs
        · rw [if_pos hm, if_pos (hxc.mpr hm)]
          ring
        · rw [if_neg hm, if_neg (fun hh => hm (hxc.mp hh))]
          ring

theorem sum_spending_partition (cs : List String) (l : List PTransaction)
    (h : cs.Nodup) (hl : ∀ t ∈ l, t.category ∈ cs) :
    (cs.map (fun c => sumAmounts (l.filter (fun t => t.category == c)))).sum =
      sumAmounts l := by
  induction l with
  | nil => simp [sumAmounts]
  | cons t l ih =>
      have hmem : t.category ∈ cs := hl t (List.mem_cons_self t l)
      have hl' : ∀ u ∈ l, u.category ∈ cs := fun u hu => hl u (List.mem_cons_of_mem t hu)
      have hpt : ∀ c, sumAmounts ((t :: l).filter (fun u => u.category == c)) =
          if t.category = c then t.amount + sumAmounts (l.filter (fun u => u.category == c))
          else sumAmounts (l.filter (fun u => u.category == c)) := by
        intro c
        by_cases hc : t.category = c
        · have hb : (t.category == c) = true := by simpa using hc
          simp [List.filter_cons, hb, hc, sumAmounts]
        · have hb : (t.category == c) = false := beq_eq_false_iff_ne.mpr hc
          simp [List.filter_cons, hb, hc]
      rw [List.map_congr_left (fun c _ => hpt c)]
      rw [sum_map_ite_split cs t.category t.amount
        (fun c => sumAmounts (l.filter (fun u => u.category == c))) h]
      rw [if_pos hmem, ih hl']
      simp [sumAmounts]

/-! ### Claim C3 -/

/-- Claim C3: `reconcile` (the data series of `plot_monthly_comparison`)
returns one entry per category of the fixed category list, in declared order
with no omission; each entry's spending is the sum of amounts over
transactions of that category dated in the requested year and month, paired
with the budget-table value (0.0 if unset); on an empty ledger every
category's spending is 0.0. -/
theorem reconcile_per_category (st : State) (y m : Nat) (ts : List PTransaction)
    (hts : parseLedger st.transactions = some ts) :
    (plot_monthly_comparison st y m =
      some (categories.map (fun c =>
        (c, sumAmounts (ts.filter (fun t => t.category == c && inMonth y m t.date)),
          (st.budgets.lookup c).getD 0)))) ∧
    (st.transactions = [] →
      plot_monthly_comparison st y m =
        some (categories.map (fun c => (c, 0, (st.budgets.lookup c).getD 0)))) := by
  have hmain : plot_monthly_comparison st y m =
      some (categories.map (fun c =>
        (c, sumAmounts (ts.filter (fun t => t.category == c && inMonth y m t.date)),
          (st.budgets.lookup c).getD 0))) := by
    unfold plot_monthly_comparison
    rw [get_monthly_spending_eq, hts]
    simp only [Option.map_some']
    congr 1
    apply List.map_congr_left
    intro c _
    rw [catSpending_groupByCategorySum]
    unfold monthlyFiltered
    rw [List.filter_filter]
    rfl
  refine ⟨hmain, fun hempty => ?_⟩
  have hts0 : ts = [] := by
    rw [hempty] at hts
    injection hts with e
    exact e.symm
  subst hts0
  rw [hmain]
  rfl

/-- Witness for `reconcile_per_category`: the empty ledger yields one
zero-spending entry per category, in order. -/
theorem reconcile_per_category_witness :
    plot_monthly_comparison initState 2024 3 =
      some (categories.map (fun c => (c, 0, (initState.budgets.lookup c).getD 0))) :=
  (reconcile_per_category initState 2024 3 [] rfl).2 rfl

/-! ### Claim C2 -/

/-- Claim C2 (amended): for ledgers all of whose transaction categories lie in
the fixed category list, the sum of the per-category spending over the entries
of the reconcile result equals the sum of amounts over the transactions of the
requested month. -/
theorem reconcile_conservation (st : State) (y m : Nat) (ts : List PTransaction)
    (hts : parseLedger st.transactions = some ts)
    (hcat : ∀ t ∈ st.transactions, t.category ∈ categories) :
    (plot_monthly_comparison st y m).map (fun es => (es.map (fun e => e.2.1)).sum) =
      some (sumAmounts (monthlyFiltered ts y m)) := by
  rw [(reconcile_per_category st y m ts hts).1]
  simp only [Option.map_some', List.map_map]
  congr 1
  have hcomp : ((fun e : String × ℚ × ℚ => e.2.1) ∘
      (fun c => (c, sumAmounts (ts.filter (fun t => t.category == c && inMonth y m t.date)),
        (st.budgets.lookup c).getD 0))) =
      fun c => sumAmounts (ts.filter (fun t => t.category == c && inMonth y m t.date)) := rfl
  rw [hcomp]
  have hflt : ∀ c, ts.filter (fun t => t.category == c && inMonth y m t.date) =
      (monthlyFiltered ts y m).filter (fun t => t.category == c) := by
    intro c
    unfold monthlyFiltered
    rw [List.filter_filter]
  rw [List.map_congr_left (fun c _ => congrArg sumAmounts (hflt c))]
  apply sum_spending_partition categories (monthlyFiltered ts y m) (by decide)
  intro t ht
  have ht' : t ∈ ts := List.mem_of_mem_filter ht
  obtain ⟨u, hu, hcat_eq⟩ := parseLedger_mem_category st.transactions ts hts t ht'
  exact hcat_eq ▸ hcat u hu

/-- Witness for `reconcile_conservation` on a concrete ledger. -/
theorem reconcile_conservation_witness :
    (plot_monthly_comparison initState 2024 3).map
      (fun es => (es.map (fun e => e.2.1)).sum) =
      some (sumAmounts (monthlyFiltered [] 2024 3)) :=
  reconcile_conservation initState 2024 3 [] rfl (by simp [initState])

/-! ### Claim C6 -/

/-- Claim C6: the month filter used by the reconciler selects exactly the
transactions whose parsed date has the requested year and month; in
particular the last day of the requested month passes the filter and the
first day of the following month does not. -/
theorem reconcile_month_inclusion (st : State) (y m : Nat) (ts : List PTransaction)
    (_hts : parseLedger st.transactions = some ts) (t : PTransaction) :
    (t ∈ monthlyFiltered ts y m ↔ t ∈ ts ∧ t.date.year = y ∧ t.date.month = m) ∧
    inMonth y m ⟨y, m, daysInMonth y m⟩ = true ∧
    inMonth y m (if m = 12 then ⟨y + 1, 1, 1⟩ else ⟨y, m + 1, 1⟩) = false := by
  refine ⟨?_, ?_, ?_⟩
  · unfold monthlyFiltered
    rw [List.mem_filter]
    simp [inMonth]
  · simp [inMonth]
  · by_cases h12 : m = 12
    · subst h12
      simp [inMonth]
    · simp [h12, inMonth]

/-- Witness for `reconcile_month_inclusion` at a concrete boundary date. -/
theorem reconcile_month_inclusion_witness :
    ((⟨⟨2024, 3, 31⟩, 0, "Food", ""⟩ : PTransaction) ∈ monthlyFiltered [] 2024 3 ↔
      (⟨⟨2024, 3, 31⟩, 0, "Food", ""⟩ : PTransaction) ∈ ([] : List PTransaction) ∧
      (2024 : Nat) = 2024 ∧ (3 : Nat) = 3) ∧
    inMonth 2024 3 ⟨2024, 3, daysInMonth 2024 3⟩ = true ∧
    inMonth 2024 3 (if (3 : Nat) = 12 then ⟨2024 + 1, 1, 1⟩ else ⟨2024, 3 + 1, 1⟩) = false :=
  reconcile_month_inclusion initState 2024 3 [] rfl ⟨⟨2024, 3, 31⟩, 0, "Food", ""⟩

/-! ### Claim C8 -/

/-- Claim C8: after a successful `update_budget` for category `c`, the
reconcile result is the old one with exactly the budget component of the
entry for `c` replaced by the new value; every other category's entry, and
all spending values, are unchanged. -/
theorem set_budget_then_reconcile (st : State) (c a : String) (q : ℚ) (y m : Nat)
    (hq : pyFloat a = some q) :
    plot_monthly_comparison (update_budget st c a).1 y m =
      (plot_monthly_comparison st y m).map
        (fun es => es.map (fun e => if e.1 = c then (e.1, e.2.1, q) else e)) := by
  have hst : (update_budget st c a).1 =
      { st with budgets := dictSet st.budgets c q } := by
    unfold update_budget
    rw [hq]
  rw [hst]
  unfold plot_monthly_comparison
  rw [get_monthly_spending_eq, get_monthly_spending_eq]
  have htr : ({ st with budgets := dictSet st.budgets c q } : State).transactions =
      st.transactions := rfl
  rw [htr]
  cases hpl : parseLedger st.transactions with
  | none => rfl
  | some ts =>
      simp only [Option.map_some', List.map_map]
      congr 1
      apply List.map_congr_left
      intro c2 _
      by_cases hc : c2 = c
      · subst hc
        simp [Function.comp, budgetGet, lookup_dictSet_self]
      · simp [Function.comp, hc, budgetGet, lookup_dictSet_ne st.budgets c c2 q hc]

/-- Witness for `set_budget_then_reconcile` at concrete inputs. -/
theorem set_budget_then_reconcile_witness :
    plot_monthly_comparison (update_budget initState "Food" "200").1 2024 3 =
      (plot_monthly_comparison initState 2024 3).map
        (fun es => es.map (fun e => if e.1 = "Food" then (e.1, e.2.1, 200) else e)) :=
  set_budget_then_reconcile initState "Food" "200" 200 2024 3 (by decide)

/-- A reachable state holding one transaction whose category is not in the
fixed category list; `add_transaction` performs no category validation. -/
def c2State : State := (add_transaction initState "2024-03-05" "1" "NotACategory" "x").1

/-- Claim C2, counterexample: a transaction whose category is outside the
fixed category list is accepted by `add_transaction` but contributes to no
reconcile entry, so the sum of per-category spending (0) differs from the sum
of amounts over the month's transactions (1): the conservation law fails for
this set of transactions. -/
theorem reconcile_drops_unknown_category :
    ((plot_monthly_comparison c2State 2024 3).map
      (fun es => (es.map (fun e => e.2.1)).sum) = some 0) ∧
    ((parseLedger c2State.transactions).map
      (fun ts => sumAmounts (monthlyFiltered ts 2024 3)) = some 1) ∧
    (0 : ℚ) ≠ 1 := by
  refine ⟨?_, ?_, by norm_num⟩
  · have h1 : plot_monthly_comparison c2State 2024 3 =
        some [("Housing", 0, 0), ("Transportation", 0, 0), ("Food", 0, 0),
          ("Utilities", 0, 0), ("Healthcare", 0, 0), ("Entertainment", 0, 0),
          ("Shopping", 0, 0), ("Other", 0, 0)] := by decide
    rw [h1]
    simp only [Option.map_some']
    norm_num
  · have h2 : parseLedger c2State.transactions =
        some [⟨⟨2024, 3, 5⟩, 1, "NotACategory", "x"⟩] := by decide
    rw [h2]
    simp only [Option.map_some']
    simp [monthlyFiltered, inMonth, sumAmounts]

/-! ### Claim C9 -/

theorem insertDesc_perm (t : Transaction) (l : List Transaction) :
    (insertDesc t l).Perm (t :: l) := by
  induction l with
  | nil => exact List.Perm.refl _
  | cons u us ih =>
      unfold insertDesc
      by_cases h : u.date ≤ t.date
      · rw [if_pos h]
      · rw [if_neg h]
        exact (ih.cons u).trans (List.Perm.swap t u us)

theorem sortByDateDesc_perm (l : List Transaction) : (sortByDateDesc l).Perm l := by
  induction l with
  | nil => exact List.Perm.refl _
  | cons t ts ih => exact (insertDesc_perm t (sortByDateDesc ts)).trans (ih.cons t)

/-- Claim C9: on a valid amount, `add_transaction` succeeds and the
transaction listing afterwards has exactly one more entry than before: the
count of entries whose date, amount, category and description equal the
inputs goes up by exactly one, and the total length by one. -/
theorem add_then_list (st : State) (d a c ds : String) (q : ℚ)
    (hq : pyFloat a = some q) :
    (add_transaction st d a c ds).2 = true ∧
    (listTransactions (add_transaction st d a c ds).1).length =
      (listTransactions st).length + 1 ∧
    (listTransactions (add_transaction st d a c ds).1).count
        (⟨d, q, c, ds⟩ : Transaction) =
      (listTransactions st).count (⟨d, q, c, ds⟩ : Transaction) + 1 := by
  have ht : (add_transaction st d a c ds).1.transactions =
      st.transactions ++ [⟨d, q, c, ds⟩] := by
    unfold add_transaction
    rw [hq]
  have hok : (add_transaction st d a c ds).2 = true := by
    unfold add_transaction
    rw [hq]
  refine ⟨hok, ?_, ?_⟩
  · unfold listTransactions
    rw [(sortByDateDesc_perm _).length_eq, (sortByDateDesc_perm _).length_eq, ht]
    simp
  · unfold listTransactions
    rw [(sortByDateDesc_perm _).count_eq, (sortByDateDesc_perm _).count_eq, ht]
    simp

/-- Witness for `add_then_list` at concrete inputs. -/
theorem add_then_list_witness :
    (add_transaction initState "2024-03-05" "5" "Food" "g").2 = true ∧
    (listTransactions (add_transaction initState "2024-03-05" "5" "Food" "g").1).length =
      (listTransactions initState).length + 1 ∧
    (listTransactions (add_transaction initState "2024-03-05" "5" "Food" "g").1).count
        (⟨"2024-03-05", 5, "Food", "g"⟩ : Transaction) =
      (listTransactions initState).count
        (⟨"2024-03-05", 5, "Food", "g"⟩ : Transaction) + 1 :=
  add_then_list initState "2024-03-05" "5" "Food" "g" 5 (by decide)

/-! ### Claim C10 -/

/-- Claim C10: `add_transaction` stores any date value as long as the amount
parses, while the reconciler parses every stored date; on a stored
unparseable date the reconcile result is undefined (`none`), and the
reconciler is total exactly under the precondition that every stored date
parses. -/
theorem reconcile_partial_on_bad_dates :
    (∀ st d a c ds q, pyFloat a = some q → (add_transaction st d a c ds).2 = true) ∧
    ((add_transaction initState "not-a-date" "5" "Food" "x").2 = true ∧
      plot_monthly_comparison (add_transaction initState "not-a-date" "5" "Food" "x").1
        2024 3 = none) ∧
    (∀ st y m, (∀ t ∈ st.transactions, (parseDate t.date).isSome = true) →
      (plot_monthly_comparison st y m).isSome = true) := by
  refine ⟨?_, ⟨?_, ?_⟩, ?_⟩
  · intro st d a c ds q hq
    unfold add_transaction
    rw [hq]
  · decide
  · decide
  · intro st y m h
    unfold plot_monthly_comparison
    rw [get_monthly_spending_eq]
    obtain ⟨ps, hps⟩ := Option.isSome_iff_exists.mp (parseLedger_isSome_of st.transactions h)
    rw [hps]
    rfl

/-- Witness for `reconcile_partial_on_bad_dates` at concrete inputs. -/
theorem reconcile_partial_on_bad_dates_witness :
    (add_transaction initState "2024-03-05" "5" "Food" "x").2 = true ∧
    (plot_monthly_comparison initState 2024 3).isSome = true :=
  ⟨reconcile_partial_on_bad_dates.1 initState "2024-03-05" "5" "Food" "x" 5 (by decide),
    reconcile_partial_on_bad_dates.2.2 initState 2024 3
      (by intro t ht; simp [initState] at ht)⟩

end FT
